import Mathlib

/-!
Verification development for the AetherSwarm verifier agent
(`src/agents/verifier/src/main.rs` and `src/agents/verifier/src/eigencloud_sdk.rs`).

The Rust code is shallowly embedded as follows.

* Byte strings are `List Nat` with entries understood modulo 256; hex rendering
  (`blake3::Hash::to_hex`) and UTF-8 encoding (`str::as_bytes`) are executable
  definitions below.
* The BLAKE3 hash itself is an external library; every definition is
  parameterised by a function `blake3 : List Nat → List Nat` standing for the
  one-shot `blake3::hash` on byte streams.  `blake3::Hasher` is modelled by the
  byte stream it has absorbed, with `finalize` applying `blake3` once.
* `serde_json::Value` payloads are carried as their canonical serialization
  outcome: `Option (List Nat)`, where `none` models a payload on which
  `serde_json::to_vec` fails, so `to_vec(data).unwrap_or_default()` is
  `data.getD []`.
* The `f32` arithmetic in the confidence computation is modelled exactly over
  `ℚ`: `toF32` is the IEEE-754 binary32 round-to-nearest-even rounding of a
  nonnegative rational in the normal range (the only range reachable from the
  chunk counts involved), and `u8OfF32` is Rust's saturating truncating
  `as u8` cast.
* The HTTP round-trip of the production attestation path and the wall clock
  are impure; they enter as explicit parameters (`external`, `now`).
-/

namespace AetherSwarm

/-! ### Hex rendering and UTF-8 encoding -/

/-- One lowercase hexadecimal digit, as produced by `to_hex` (input `< 16`). -/
def hexDigit (n : Nat) : Char :=
  if n < 10 then Char.ofNat (48 + n) else Char.ofNat (87 + n)

/-- Lowercase hex rendering of one byte (value taken mod 256) as two digits. -/
def byteHex (b : Nat) : List Char :=
  [hexDigit (b % 256 / 16), hexDigit (b % 16)]

/-- `Hash::to_hex().to_string()`: lowercase hex string of a byte list. -/
def hexRender (bs : List Nat) : String :=
  ⟨bs.flatMap byteHex⟩

/-- UTF-8 encoding of one character. -/
def utf8Char (c : Char) : List Nat :=
  let n := c.toNat
  if n < 128 then [n]
  else if n < 2048 then [192 + n / 64, 128 + n % 64]
  else if n < 65536 then [224 + n / 4096, 128 + n / 64 % 64, 128 + n % 64]
  else [240 + n / 262144, 128 + n / 4096 % 64, 128 + n / 64 % 64, 128 + n % 64]

/-- `str::as_bytes`: the UTF-8 bytes of a string. -/
def utf8Bytes (s : String) : List Nat :=
  s.data.flatMap utf8Char

/-! ### Exact model of the `f32` arithmetic in the confidence computation -/

/-- Round a rational to the nearest integer, ties to even
(the IEEE-754 default rounding attitude, applied to the scaled significand). -/
def roundEven (q : ℚ) : ℤ :=
  if 2 * (q - ⌊q⌋) < 1 then ⌊q⌋
  else if 1 < 2 * (q - ⌊q⌋) then ⌊q⌋ + 1
  else if ⌊q⌋ % 2 = 0 then ⌊q⌋ else ⌊q⌋ + 1

/-- Exact value of rounding a rational to an IEEE-754 binary32 float
(round to nearest, ties to even, 24-bit significand), for arguments in the
normal range; nonpositive arguments map to zero.  All values reachable in the
verifier's confidence computation (chunk counts, their quotient, and that
quotient times 100) lie far inside the normal range, so overflow and
subnormals do not arise. -/
def toF32 (q : ℚ) : ℚ :=
  if 0 < q then
    (roundEven (q * 2 ^ ((23 : ℤ) - Int.log 2 q)) : ℚ) * 2 ^ (Int.log 2 q - 23)
  else 0

/-- Rust's `as u8` cast of an `f32` value: truncate toward zero, saturating
into `[0, 255]`. -/
def u8OfF32 (q : ℚ) : Nat :=
  min 255 (Int.toNat ⌊q⌋)

/-! ### Data model (main.rs structs, eigencloud_sdk.rs structs) -/

/-- main.rs `DataChunk`.  The `serde_json::Value` payload is carried as its
canonical serialization outcome: `some bytes` when `serde_json::to_vec`
succeeds, `none` when it fails. -/
structure DataChunk where
  source : String
  data : Option (List Nat)
  hash : String
  timestamp : Nat
  deriving DecidableEq

/-- main.rs `VerifyTask`. -/
structure VerifyTask where
  task_type : String
  quest_id : String
  data : List DataChunk
  expected_hashes : List String
  deriving DecidableEq

/-- eigencloud_sdk.rs `AttestationResponse`. -/
structure AttestationResponse where
  quote : String
  validator_pubkey : String
  signature : String
  success : Bool
  error : Option String
  deriving DecidableEq

/-- main.rs `TeeAttestation`. -/
structure TeeAttestation where
  quote : String
  data_hash : String
  timestamp : Nat
  validator_pubkey : String
  signature : String
  confidence_score : Nat
  deriving DecidableEq

/-- main.rs `VerificationResult`. -/
structure VerificationResult where
  result_type : String
  quest_id : String
  agent_id : String
  status : String
  attestation : TeeAttestation
  verified_chunks : List String
  failed_chunks : List String
  deriving DecidableEq

/-! ### The incremental hasher (`blake3::Hasher`) -/

/-- `blake3::Hasher`, modelled by the byte stream absorbed so far. -/
structure Hasher where
  acc : List Nat
  deriving DecidableEq

/-- `Hasher::new()`. -/
def Hasher.new : Hasher := ⟨[]⟩

/-- `Hasher::update`: absorb more bytes. -/
def Hasher.update (h : Hasher) (bs : List Nat) : Hasher := ⟨h.acc ++ bs⟩

/-- `Hasher::finalize`: hash the absorbed stream once. -/
def Hasher.finalize (blake3 : List Nat → List Nat) (h : Hasher) : List Nat :=
  blake3 h.acc

/-! ### eigencloud_sdk.rs: attestation provider -/

/-- eigencloud_sdk.rs `generate_dev_attestation` (lines 166-183): the
simulated attestation, a keyed hash over the aggregate hash, the quest id and
the fixed tag `eigencloud_dev_attestation`, each field carrying a `DEV_`
marker prefix.  With the real BLAKE3 the hex digest has 64 characters, so the
`[..16]` and `[16..48]` byte slices of the Rust source are the character
ranges taken here. -/
def generate_dev_attestation (blake3 : List Nat → List Nat)
    (data_hash quest_id : String) : AttestationResponse :=
  let quote_hash :=
    (((Hasher.new.update (utf8Bytes data_hash)).update
        (utf8Bytes quest_id)).update
        (utf8Bytes "eigencloud_dev_attestation")).finalize blake3
  { quote := "DEV_TDX_QUOTE_" ++ hexRender quote_hash
    validator_pubkey := "DEV_PUBKEY_" ++ (hexRender quote_hash).take 16
    signature := "DEV_SIG_" ++ ((hexRender quote_hash).drop 16).take 32
    success := true
    error := none }

/-- eigencloud_sdk.rs `execute_verification` (lines 112-162).  In dev mode it
returns the simulated attestation; in production it performs an HTTP
round-trip to the TEE container, whose outcome (the parsed success payload,
or the typed error string built from a transport failure, non-success status
or parse failure) enters the model as the `external` function of the request
fields. -/
def execute_verification (blake3 : List Nat → List Nat) (dev_mode : Bool)
    (external : String → List String → String → Nat →
      Except String AttestationResponse)
    (data_hash : String) (verified_hashes : List String) (quest_id : String)
    (now : Nat) : Except String AttestationResponse :=
  if dev_mode then Except.ok (generate_dev_attestation blake3 data_hash quest_id)
  else external data_hash verified_hashes quest_id now

/-! ### main.rs: the verification pipeline -/

/-- main.rs `verify_hash` (lines 93-99): serialize the payload
(`unwrap_or_default` makes a failed serialization the empty byte string),
hash it, render lowercase hex and compare with the expected digest. -/
def verify_hash (blake3 : List Nat → List Nat) (data : Option (List Nat))
    (expected_hash : String) : Bool :=
  hexRender (blake3 (data.getD [])) == expected_hash

/-- Whether one chunk passes its digest check. -/
def chunkOk (blake3 : List Nat → List Nat) (c : DataChunk) : Bool :=
  verify_hash blake3 c.data c.hash

/-- The chunk loop of `verify_in_tee` (main.rs lines 107-113): push each
chunk's digest into the verified or the failed list. -/
def partitionChunks (blake3 : List Nat → List Nat) (chunks : List DataChunk) :
    List String × List String :=
  chunks.foldl
    (fun acc c =>
      if chunkOk blake3 c then (acc.1 ++ [c.hash], acc.2)
      else (acc.1, acc.2 ++ [c.hash]))
    ([], [])

/-- The aggregate commitment of `verify_in_tee` (main.rs lines 116-120): one
incremental hasher absorbs each verified digest's bytes in order and is
finalized once, rendered as hex. -/
def aggregate_hash (blake3 : List Nat → List Nat) (verified : List String) :
    String :=
  hexRender
    ((verified.foldl (fun h d => h.update (utf8Bytes d)) Hasher.new).finalize
      blake3)

/-- The confidence computation of `verify_in_tee` (main.rs lines 131-133):
`if failed_chunks.is_empty() { 100 } else
{ ((verified.len() as f32 / task.data.len() as f32) * 100.0) as u8 }`,
with every `f32` rounding step explicit.  The division by zero the else
branch would perform at `t = 0` is unreachable: an empty chunk list has an
empty failed list. -/
def confidence_policy (failedEmpty : Bool) (v t : Nat) : Nat :=
  if failedEmpty then 100
  else u8OfF32 (toF32 (toF32 (toF32 (v : ℚ) / toF32 (t : ℚ)) * 100))

/-- The confidence score as a function of the verified and total counts alone.
In `verify_in_tee` the failed list is empty exactly when every chunk
verified, so the pipeline's `confidence_policy` call reduces to this. -/
def confidence_score (v t : Nat) : Nat :=
  confidence_policy (v == t) v t

/-- main.rs `verify_in_tee` (lines 102-156).  `now` is the wall clock read
for the attestation timestamp. -/
def verify_in_tee (blake3 : List Nat → List Nat) (dev_mode : Bool)
    (external : String → List String → String → Nat →
      Except String AttestationResponse)
    (agent_id : String) (now : Nat) (task : VerifyTask) :
    Except String VerificationResult :=
  let p := partitionChunks blake3 task.data
  let aggregate := aggregate_hash blake3 p.1
  match execute_verification blake3 dev_mode external aggregate p.1
      task.quest_id now with
  | Except.error e => Except.error e
  | Except.ok att =>
    let confidence := confidence_policy p.2.isEmpty p.1.length task.data.length
    Except.ok
      { result_type := "task_result"
        quest_id := task.quest_id
        agent_id := agent_id
        status := if 95 ≤ confidence then "verified" else "partial"
        attestation :=
          { quote := att.quote
            data_hash := aggregate
            timestamp := now
            validator_pubkey := att.validator_pubkey
            signature := att.signature
            confidence_score := confidence }
        verified_chunks := p.1
        failed_chunks := p.2 }

/-! ### main.rs: protocol dispatch and session loop -/

/-- An inbound text message after JSON decoding, as `handle_task` dispatches
on it: a well-formed `verify_task`, a `ping`, a well-formed envelope with an
unknown type tag, or an undecodable message (malformed JSON, a missing type
tag, or a `verify_task` whose body does not decode). -/
inductive InboundMessage where
  | verifyTask (task : VerifyTask)
  | ping
  | unknownType (tag : String)
  | malformed
  deriving DecidableEq

/-- The error envelope built by `handle_task` on a failed pipeline run
(main.rs lines 180-186).  It has no attestation field. -/
structure ErrorEnvelope where
  result_type : String
  quest_id : String
  agent_id : String
  status : String
  error : String
  deriving DecidableEq

/-- An outbound reply: a completed verification result, an error envelope, or
a pong. -/
inductive OutboundMessage where
  | result (r : VerificationResult)
  | errorResult (env : ErrorEnvelope)
  | pong (agent_id : String)
  deriving DecidableEq

/-- main.rs `handle_task` (lines 159-199): dispatch one decoded inbound
message; `none` means no reply is sent. -/
def handle_task (blake3 : List Nat → List Nat) (dev_mode : Bool)
    (external : String → List String → String → Nat →
      Except String AttestationResponse)
    (agent_id : String) (now : Nat) (msg : InboundMessage) :
    Option OutboundMessage :=
  match msg with
  | InboundMessage.verifyTask task =>
    match verify_in_tee blake3 dev_mode external agent_id now task with
    | Except.ok result => some (OutboundMessage.result result)
    | Except.error e =>
      some (OutboundMessage.errorResult
        { result_type := "task_result"
          quest_id := task.quest_id
          agent_id := agent_id
          status := "error"
          error := e })
  | InboundMessage.ping => some (OutboundMessage.pong agent_id)
  | InboundMessage.unknownType _ => none
  | InboundMessage.malformed => none

/-- One transport event seen by the read loop of `run` (main.rs
lines 220-236). -/
inductive WsEvent where
  | text (msg : InboundMessage)
  | close
  | wsError
  | other
  deriving DecidableEq

/-- Whether the read loop of `run` keeps the session alive after one event:
text and other frames are processed and the loop continues; a close frame or
a transport error breaks the loop. -/
def session_continues : WsEvent → Bool
  | WsEvent.text _ => true
  | WsEvent.other => true
  | WsEvent.close => false
  | WsEvent.wsError => false

/-! ### Concrete instances, used to exercise the theorems below -/

/-- A concrete digest function mapping every stream to the empty digest, so a
chunk whose hash field is the empty string passes its check. -/
def constHash : List Nat → List Nat := fun _ => []

/-- A chunk that passes its digest check under `constHash`. -/
def okChunk : DataChunk :=
  { source := "sensor", data := some [], hash := "", timestamp := 0 }

/-- A chunk that fails its digest check under `constHash`. -/
def badChunk : DataChunk :=
  { source := "sensor", data := some [], hash := "x", timestamp := 0 }

/-- A production attestation endpoint that always succeeds. -/
def okExternal : String → List String → String → Nat →
    Except String AttestationResponse :=
  fun _ _ _ _ =>
    Except.ok
      { quote := "q", validator_pubkey := "k", signature := "sg",
        success := true, error := none }

/-- A production attestation endpoint that always fails with a transport
error. -/
def errExternal : String → List String → String → Nat →
    Except String AttestationResponse :=
  fun _ _ _ _ => Except.error "TEE container error: connection refused"

/-- A two-chunk task in which every chunk verifies under `constHash`. -/
def task2 : VerifyTask :=
  { task_type := "verify_task", quest_id := "quest-1",
    data := [okChunk, okChunk], expected_hashes := ["h1"] }

/-- `task2` with a different type tag and expected-hash list. -/
def task2b : VerifyTask :=
  { task_type := "other_type", quest_id := "quest-1",
    data := [okChunk, okChunk], expected_hashes := ["zzz"] }

/-- A task with no chunks at all. -/
def emptyTask : VerifyTask :=
  { task_type := "verify_task", quest_id := "quest-0",
    data := [], expected_hashes := [] }

/-- A task with 100 chunks of which 53 verify under `constHash`. -/
def task53 : VerifyTask :=
  { task_type := "verify_task", quest_id := "quest-53",
    data := List.replicate 53 okChunk ++ List.replicate 47 badChunk,
    expected_hashes := [] }

/-- A task with `2 ^ 25` chunks of which all but one verify under
`constHash`. -/
def taskBig : VerifyTask :=
  { task_type := "verify_task", quest_id := "quest-big",
    data := List.replicate 33554431 okChunk ++ List.replicate 1 badChunk,
    expected_hashes := [] }

/-- The result of running `task2` with `okExternal` at time 0. -/
def res2 : VerificationResult :=
  { result_type := "task_result", quest_id := "quest-1",
    agent_id := "agent-1", status := "verified",
    attestation :=
      { quote := "q", data_hash := "", timestamp := 0,
        validator_pubkey := "k", signature := "sg", confidence_score := 100 },
    verified_chunks := ["", ""], failed_chunks := [] }

/-- The result of running `emptyTask` with `okExternal` at time 0. -/
def resEmpty : VerificationResult :=
  { result_type := "task_result", quest_id := "quest-0",
    agent_id := "agent-1", status := "verified",
    attestation :=
      { quote := "q", data_hash := "", timestamp := 0,
        validator_pubkey := "k", signature := "sg", confidence_score := 100 },
    verified_chunks := [], failed_chunks := [] }

/-! #### Basic facts about `roundEven` -/

theorem le_roundEven (q : ℚ) : ⌊q⌋ ≤ roundEven q := by
  unfold roundEven
  split_ifs <;> omega

theorem roundEven_le (q : ℚ) : roundEven q ≤ ⌊q⌋ + 1 := by
  unfold roundEven
  split_ifs <;> omega

theorem roundEven_of_lt {q : ℚ} {f : ℤ} (hf : ⌊q⌋ = f) (h : 2 * (q - f) < 1) :
    roundEven q = f := by
  unfold roundEven
  rw [hf, if_pos h]

theorem roundEven_of_gt {q : ℚ} {f : ℤ} (hf : ⌊q⌋ = f) (h : 1 < 2 * (q - f)) :
    roundEven q = f + 1 := by
  unfold roundEven
  rw [hf, if_neg (by linarith), if_pos h]

theorem roundEven_of_tie {q : ℚ} {f : ℤ} (hf : ⌊q⌋ = f) (h : 2 * (q - f) = 1) :
    roundEven q = if f % 2 = 0 then f else f + 1 := by
  unfold roundEven
  rw [hf, if_neg (by linarith), if_neg (by linarith)]

theorem roundEven_mono {a b : ℚ} (h : a ≤ b) : roundEven a ≤ roundEven b := by
  rcases lt_or_eq_of_le (Int.floor_le_floor h) with hf | hf
  · calc roundEven a ≤ ⌊a⌋ + 1 := roundEven_le a
      _ ≤ ⌊b⌋ := by omega
      _ ≤ roundEven b := le_roundEven b
  · unfold roundEven
    rw [hf]
    have hab : a - (⌊b⌋ : ℚ) ≤ b - (⌊b⌋ : ℚ) := by linarith
    split_ifs <;> first | omega | (exfalso; linarith)

theorem roundEven_intCast (n : ℤ) : roundEven (n : ℚ) = n := by
  apply roundEven_of_lt (by simp)
  simp

/-! #### Basic facts about `toF32` -/

theorem toF32_of_nonpos {q : ℚ} (h : q ≤ 0) : toF32 q = 0 := by
  unfold toF32
  rw [if_neg (by linarith)]

theorem toF32_eval {q : ℚ} (e m : ℤ) (h0 : 0 < q) (hl : 2 ^ e ≤ q)
    (hu : q < 2 ^ (e + 1)) (hm : roundEven (q * 2 ^ ((23 : ℤ) - e)) = m) :
    toF32 q = (m : ℚ) * 2 ^ (e - 23) := by
  have hlog : Int.log 2 q = e := by
    have hle : e ≤ Int.log 2 q := by
      have := (Int.zpow_le_iff_le_log (b := 2) (by norm_num) h0 (x := e)).mp
      exact this (by exact_mod_cast hl)
    have hlt : Int.log 2 q < e + 1 := by
      have := (Int.lt_zpow_iff_log_lt (b := 2) (by norm_num) h0 (x := e + 1)).mp
      exact this (by exact_mod_cast hu)
    omega
  unfold toF32
  rw [if_pos h0, hlog, hm]

/-- Lower bound: the scaled significand of a positive rational is at least
`2 ^ 23`. -/
theorem toF32_pos {q : ℚ} (h : 0 < q) : 0 < toF32 q := by
  unfold toF32
  rw [if_pos h]
  have hlb : (2 : ℚ) ^ Int.log 2 q ≤ q :=
    Int.zpow_log_le_self (by norm_num) h
  have harg : (2 : ℚ) ^ (23 : ℤ) ≤ q * 2 ^ ((23 : ℤ) - Int.log 2 q) := by
    have hpow : (0 : ℚ) < 2 ^ ((23 : ℤ) - Int.log 2 q) := zpow_pos (by norm_num) _
    calc (2 : ℚ) ^ (23 : ℤ)
        = 2 ^ Int.log 2 q * 2 ^ ((23 : ℤ) - Int.log 2 q) := by
          rw [← zpow_add₀ (by norm_num : (2 : ℚ) ≠ 0)]
          ring_nf
      _ ≤ q * 2 ^ ((23 : ℤ) - Int.log 2 q) := by
          exact mul_le_mul_of_nonneg_right hlb (le_of_lt hpow)
  have hfl : (2 : ℤ) ^ (23 : ℕ) ≤ ⌊q * 2 ^ ((23 : ℤ) - Int.log 2 q)⌋ := by
    apply Int.le_floor.mpr
    calc ((2 ^ (23 : ℕ) : ℤ) : ℚ) = (2 : ℚ) ^ (23 : ℤ) := by norm_num
      _ ≤ q * 2 ^ ((23 : ℤ) - Int.log 2 q) := harg
  have hre : (0 : ℤ) < roundEven (q * 2 ^ ((23 : ℤ) - Int.log 2 q)) := by
    have := le_roundEven (q * 2 ^ ((23 : ℤ) - Int.log 2 q))
    have h23 : (0 : ℤ) < 2 ^ (23 : ℕ) := by positivity
    omega
  have : (0 : ℚ) < (roundEven (q * 2 ^ ((23 : ℤ) - Int.log 2 q)) : ℚ) := by
    exact_mod_cast hre
  exact mul_pos this (zpow_pos (by norm_num) _)

theorem toF32_nonneg (q : ℚ) : 0 ≤ toF32 q := by
  rcases le_or_lt q 0 with h | h
  · rw [toF32_of_nonpos h]
  · exact le_of_lt (toF32_pos h)

/-- Upper and lower window of `toF32` inside one binade, used for
monotonicity across binades. -/
theorem toF32_le_binade {q : ℚ} (h : 0 < q) :
    (2 : ℚ) ^ Int.log 2 q ≤ toF32 q ∧ toF32 q ≤ 2 ^ (Int.log 2 q + 1) := by
  set e := Int.log 2 q with he
  have hlb : (2 : ℚ) ^ e ≤ q := Int.zpow_log_le_self (by norm_num) h
  have hub : q < 2 ^ (e + 1) := Int.lt_zpow_succ_log_self (by norm_num) q
  have hpow : (0 : ℚ) < 2 ^ ((23 : ℤ) - e) := zpow_pos (by norm_num) _
  have hsplit : ∀ x : ℤ, (2 : ℚ) ^ x * 2 ^ ((23 : ℤ) - e) = 2 ^ (x + 23 - e) := by
    intro x
    rw [← zpow_add₀ (by norm_num : (2 : ℚ) ≠ 0)]
    ring_nf
  have harg_lb : (2 : ℚ) ^ ((23 : ℤ)) ≤ q * 2 ^ ((23 : ℤ) - e) := by
    calc (2 : ℚ) ^ (23 : ℤ) = 2 ^ (e + 23 - e) := by ring_nf
      _ = 2 ^ e * 2 ^ ((23 : ℤ) - e) := (hsplit e).symm
      _ ≤ q * 2 ^ ((23 : ℤ) - e) := mul_le_mul_of_nonneg_right hlb (le_of_lt hpow)
  have harg_ub : q * 2 ^ ((23 : ℤ) - e) < 2 ^ ((24 : ℤ)) := by
    calc q * 2 ^ ((23 : ℤ) - e) < 2 ^ (e + 1) * 2 ^ ((23 : ℤ) - e) :=
          mul_lt_mul_of_pos_right hub hpow
      _ = 2 ^ (e + 1 + 23 - e) := hsplit (e + 1)
      _ = 2 ^ ((24 : ℤ)) := by ring_nf
  have hfl_lb : (2 : ℤ) ^ (23 : ℕ) ≤ ⌊q * 2 ^ ((23 : ℤ) - e)⌋ := by
    apply Int.le_floor.mpr
    calc ((2 ^ (23 : ℕ) : ℤ) : ℚ) = (2 : ℚ) ^ (23 : ℤ) := by norm_num
      _ ≤ q * 2 ^ ((23 : ℤ) - e) := harg_lb
  have hfl_ub : ⌊q * 2 ^ ((23 : ℤ) - e)⌋ < (2 : ℤ) ^ (24 : ℕ) := by
    have h1 := Int.floor_le (q * 2 ^ ((23 : ℤ) - e))
    have hc : (2 : ℚ) ^ ((24 : ℤ)) = (((2 : ℤ) ^ (24 : ℕ) : ℤ) : ℚ) := by norm_num
    have h2 : (⌊q * 2 ^ ((23 : ℤ) - e)⌋ : ℚ) < (((2 : ℤ) ^ (24 : ℕ) : ℤ) : ℚ) := by
      rw [← hc]
      linarith
    exact_mod_cast h2
  have hre_lb : (2 : ℤ) ^ (23 : ℕ) ≤ roundEven (q * 2 ^ ((23 : ℤ) - e)) := by
    have := le_roundEven (q * 2 ^ ((23 : ℤ) - e))
    omega
  have hre_ub : roundEven (q * 2 ^ ((23 : ℤ) - e)) ≤ (2 : ℤ) ^ (24 : ℕ) := by
    have := roundEven_le (q * 2 ^ ((23 : ℤ) - e))
    omega
  have hval : toF32 q = (roundEven (q * 2 ^ ((23 : ℤ) - e)) : ℚ) * 2 ^ (e - 23) := by
    unfold toF32
    rw [if_pos h, ← he]
  have hp : (0 : ℚ) < 2 ^ (e - 23) := zpow_pos (by norm_num) _
  constructor
  · rw [hval]
    calc (2 : ℚ) ^ e = 2 ^ ((23 : ℤ) + (e - 23)) := by ring_nf
      _ = 2 ^ ((23 : ℤ)) * 2 ^ (e - 23) := zpow_add₀ (by norm_num) _ _
      _ ≤ (roundEven (q * 2 ^ ((23 : ℤ) - e)) : ℚ) * 2 ^ (e - 23) := by
          apply mul_le_mul_of_nonneg_right _ (le_of_lt hp)
          calc (2 : ℚ) ^ ((23 : ℤ)) = ((2 ^ (23 : ℕ) : ℤ) : ℚ) := by norm_num
            _ ≤ _ := by exact_mod_cast hre_lb
  · rw [hval]
    calc (roundEven (q * 2 ^ ((23 : ℤ) - e)) : ℚ) * 2 ^ (e - 23)
        ≤ ((2 ^ (24 : ℕ) : ℤ) : ℚ) * 2 ^ (e - 23) := by
          apply mul_le_mul_of_nonneg_right _ (le_of_lt hp)
          exact_mod_cast hre_ub
      _ = 2 ^ ((24 : ℤ)) * 2 ^ (e - 23) := by norm_num
      _ = 2 ^ ((24 : ℤ) + (e - 23)) := (zpow_add₀ (by norm_num) _ _).symm
      _ = 2 ^ (e + 1) := by ring_nf

theorem toF32_mono {a b : ℚ} (h : a ≤ b) : toF32 a ≤ toF32 b := by
  rcases le_or_lt a 0 with ha | ha
  · rw [toF32_of_nonpos ha]
    exact toF32_nonneg b
  have hb : 0 < b := lt_of_lt_of_le ha h
  have hlog : Int.log 2 a ≤ Int.log 2 b := Int.log_mono_right ha h
  rcases lt_or_eq_of_le hlog with hlt | heq
  · calc toF32 a ≤ 2 ^ (Int.log 2 a + 1) := (toF32_le_binade ha).2
      _ ≤ 2 ^ Int.log 2 b := by
          apply zpow_le_zpow_right₀ (by norm_num) (by omega)
      _ ≤ toF32 b := (toF32_le_binade hb).1
  · unfold toF32
    rw [if_pos ha, if_pos hb, ← heq]
    apply mul_le_mul_of_nonneg_right _
      (le_of_lt (zpow_pos (by norm_num) _))
    have : a * 2 ^ ((23 : ℤ) - Int.log 2 a) ≤ b * 2 ^ ((23 : ℤ) - Int.log 2 a) :=
      mul_le_mul_of_nonneg_right h (le_of_lt (zpow_pos (by norm_num) _))
    exact_mod_cast roundEven_mono this

theorem toF32_one : toF32 1 = 1 := by
  have := toF32_eval (q := 1) 0 (2 ^ 23) (by norm_num) (by norm_num)
    (by norm_num)
    (by
      have : (1 : ℚ) * 2 ^ ((23 : ℤ) - 0) = ((2 ^ 23 : ℤ) : ℚ) := by norm_num
      rw [this, roundEven_intCast])
  rw [this]
  norm_num

theorem toF32_100 : toF32 100 = 100 := by
  have := toF32_eval (q := 100) 6 13107200 (by norm_num) (by norm_num)
    (by norm_num)
    (by
      have : (100 : ℚ) * 2 ^ ((23 : ℤ) - 6) = ((13107200 : ℤ) : ℚ) := by norm_num
      rw [this, roundEven_intCast])
  rw [this]
  norm_num

/-! ### Structural lemmas about the pipeline -/

theorem partitionChunks_go (blake3 : List Nat → List Nat)
    (chunks : List DataChunk) (a b : List String) :
    chunks.foldl
      (fun acc c =>
        if chunkOk blake3 c then (acc.1 ++ [c.hash], acc.2)
        else (acc.1, acc.2 ++ [c.hash]))
      (a, b) =
    (a ++ (chunks.filter (chunkOk blake3)).map (fun c => c.hash),
     b ++ (chunks.filter (fun c => ! chunkOk blake3 c)).map (fun c => c.hash)) := by
  induction chunks generalizing a b with
  | nil => simp
  | cons c cs ih =>
    by_cases hc : chunkOk blake3 c
    · simp only [List.foldl_cons, ih, List.filter_cons, hc, if_pos hc]
      simp [List.append_assoc]
    · have hc' : chunkOk blake3 c = false := by
        exact Bool.not_eq_true _ ▸ (by simpa using hc)
      simp only [List.foldl_cons, ih, List.filter_cons, hc', if_neg hc]
      simp [List.append_assoc]

/-- The chunk loop is the pair of order-preserving filters of the input. -/
theorem partitionChunks_eq (blake3 : List Nat → List Nat)
    (chunks : List DataChunk) :
    partitionChunks blake3 chunks =
      ((chunks.filter (chunkOk blake3)).map (fun c => c.hash),
       (chunks.filter (fun c => ! chunkOk blake3 c)).map (fun c => c.hash)) := by
  unfold partitionChunks
  simpa using partitionChunks_go blake3 chunks [] []

theorem length_filter_add_length_filter_not (p : DataChunk → Bool)
    (l : List DataChunk) :
    (l.filter p).length + (l.filter (fun c => ! p c)).length = l.length := by
  induction l with
  | nil => rfl
  | cons c cs ih =>
    by_cases hc : p c
    · simp [List.filter_cons, hc, Nat.succ_add, ih]
    · have hc' : p c = false := by simpa using hc
      simp [List.filter_cons, hc', ih]
      omega

theorem aggregate_go (digests : List String) (acc : List Nat) :
    (digests.foldl (fun (h : Hasher) d => h.update (utf8Bytes d))
        (Hasher.mk acc)).acc =
      acc ++ (digests.map utf8Bytes).flatten := by
  induction digests generalizing acc with
  | nil => simp
  | cons d ds ih =>
    rw [List.foldl_cons,
      show (Hasher.mk acc).update (utf8Bytes d) = Hasher.mk (acc ++ utf8Bytes d)
        from rfl,
      ih]
    simp [List.append_assoc]

/-- `verify_in_tee`, inverted: a successful run determines every field of the
result from the partition, the aggregate and the attestation response. -/
theorem verify_in_tee_ok_fields {blake3 : List Nat → List Nat}
    {dev_mode : Bool}
    {external : String → List String → String → Nat →
      Except String AttestationResponse}
    {agent_id : String} {now : Nat} {task : VerifyTask}
    {r : VerificationResult}
    (h : verify_in_tee blake3 dev_mode external agent_id now task =
      Except.ok r) :
    ∃ att,
      execute_verification blake3 dev_mode external
          (aggregate_hash blake3 (partitionChunks blake3 task.data).1)
          (partitionChunks blake3 task.data).1 task.quest_id now =
        Except.ok att ∧
      r = { result_type := "task_result"
            quest_id := task.quest_id
            agent_id := agent_id
            status :=
              if 95 ≤ confidence_policy (partitionChunks blake3 task.data).2.isEmpty
                  (partitionChunks blake3 task.data).1.length task.data.length
              then "verified" else "partial"
            attestation :=
              { quote := att.quote
                data_hash :=
                  aggregate_hash blake3 (partitionChunks blake3 task.data).1
                timestamp := now
                validator_pubkey := att.validator_pubkey
                signature := att.signature
                confidence_score :=
                  confidence_policy (partitionChunks blake3 task.data).2.isEmpty
                    (partitionChunks blake3 task.data).1.length
                    task.data.length }
            verified_chunks := (partitionChunks blake3 task.data).1
            failed_chunks := (partitionChunks blake3 task.data).2 } := by
  simp only [verify_in_tee] at h
  cases hA : execute_verification blake3 dev_mode external
      (aggregate_hash blake3 (partitionChunks blake3 task.data).1)
      (partitionChunks blake3 task.data).1 task.quest_id now with
  | error e =>
    simp only [hA] at h
    exact Except.noConfusion h
  | ok att =>
    simp only [hA, Except.ok.injEq] at h
    exact ⟨att, rfl, h.symm⟩

/-! ### Injectivity of the hex rendering -/

theorem hexDigit_inj_fin : ∀ a b : Fin 16, hexDigit a.val = hexDigit b.val → a = b := by
  decide

theorem hexDigit_inj {a b : Nat} (ha : a < 16) (hb : b < 16)
    (h : hexDigit a = hexDigit b) : a = b := by
  have := hexDigit_inj_fin ⟨a, ha⟩ ⟨b, hb⟩ h
  exact congrArg Fin.val this

theorem byteHex_inj {x y : Nat} (hx : x < 256) (hy : y < 256)
    (h : byteHex x = byteHex y) : x = y := by
  unfold byteHex at h
  have h1 : hexDigit (x % 256 / 16) = hexDigit (y % 256 / 16) := by
    injection h
  have h2 : hexDigit (x % 16) = hexDigit (y % 16) := by
    injection h with h1' h2'
    injection h2'
  have e1 : x % 256 / 16 = y % 256 / 16 :=
    hexDigit_inj (by omega) (by omega) h1
  have e2 : x % 16 = y % 16 := hexDigit_inj (by omega) (by omega) h2
  omega

/-- Hex rendering is injective on byte lists (entries below 256): the digest
string determines the digest bytes. -/
theorem hexRender_inj {xs ys : List Nat} (hx : ∀ b ∈ xs, b < 256)
    (hy : ∀ b ∈ ys, b < 256) (h : hexRender xs = hexRender ys) : xs = ys := by
  unfold hexRender at h
  replace h : xs.flatMap byteHex = ys.flatMap byteHex := congrArg String.data h
  induction xs generalizing ys with
  | nil =>
    cases ys with
    | nil => rfl
    | cons y ys => simp [byteHex] at h
  | cons x xs ih =>
    cases ys with
    | nil => simp [byteHex] at h
    | cons y ys =>
      simp only [List.flatMap_cons, byteHex, List.cons_append, List.nil_append,
        List.cons.injEq] at h
      obtain ⟨hd1, hd2, hrest⟩ := h
      have hxy : x = y := by
        apply byteHex_inj (hx x (by simp)) (hy y (by simp))
        unfold byteHex
        rw [hd1, hd2]
      rw [hxy, ih (fun b hb => hx b (by simp [hb]))
        (fun b hb => hy b (by simp [hb])) hrest]

/-! ### Replicated chunk lists (used to build concrete large tasks) -/

theorem filter_replicate_of_pos {α : Type} (p : α → Bool) (a : α) (n : Nat)
    (h : p a = true) :
    (List.replicate n a).filter p = List.replicate n a := by
  induction n with
  | zero => rfl
  | succ k ih => simp [List.replicate_succ, List.filter_cons, h, ih]

theorem filter_replicate_of_neg {α : Type} (p : α → Bool) (a : α) (n : Nat)
    (h : p a = false) :
    (List.replicate n a).filter p = [] := by
  induction n with
  | zero => rfl
  | succ k ih => simp [List.replicate_succ, List.filter_cons, h, ih]

/-! ### Facts about the confidence computation -/

theorem u8OfF32_mono {a b : ℚ} (h : a ≤ b) : u8OfF32 a ≤ u8OfF32 b := by
  unfold u8OfF32
  have h1 := Int.floor_le_floor h
  have h2 := Int.toNat_le_toNat h1
  omega

theorem u8OfF32_le {q : ℚ} {n : Nat} (hn : n ≤ 255) (h : q ≤ (n : ℚ)) :
    u8OfF32 q ≤ n := by
  unfold u8OfF32
  have h1 : ⌊q⌋ ≤ (n : ℤ) := by
    have := Int.floor_le_floor h
    simpa using this
  have h2 := Int.toNat_le_toNat h1
  simp at h2
  omega

/-- The float expression of the else branch, as an exact rational. -/
def confidenceRaw (v t : Nat) : ℚ :=
  toF32 (toF32 (toF32 (v : ℚ) / toF32 (t : ℚ)) * 100)

theorem confidenceRaw_le_100 {v t : Nat} (hv : v ≤ t) (ht : 0 < t) :
    confidenceRaw v t ≤ 100 := by
  unfold confidenceRaw
  have hvt : toF32 (v : ℚ) ≤ toF32 (t : ℚ) := toF32_mono (by exact_mod_cast hv)
  have htp : 0 < toF32 (t : ℚ) := toF32_pos (by exact_mod_cast ht)
  have hdiv : toF32 (v : ℚ) / toF32 (t : ℚ) ≤ 1 := (div_le_one htp).mpr hvt
  have hr : toF32 (toF32 (v : ℚ) / toF32 (t : ℚ)) ≤ 1 := by
    calc toF32 (toF32 (v : ℚ) / toF32 (t : ℚ)) ≤ toF32 1 := toF32_mono hdiv
      _ = 1 := toF32_one
  have hm : toF32 (toF32 (v : ℚ) / toF32 (t : ℚ)) * 100 ≤ 100 := by linarith
  calc toF32 (toF32 (toF32 (v : ℚ) / toF32 (t : ℚ)) * 100) ≤ toF32 100 :=
        toF32_mono hm
    _ = 100 := toF32_100

theorem confidenceRaw_mono {v1 v2 t : Nat} (ht : 0 < t) (h : v1 ≤ v2) :
    confidenceRaw v1 t ≤ confidenceRaw v2 t := by
  unfold confidenceRaw
  have htp : 0 < toF32 (t : ℚ) := toF32_pos (by exact_mod_cast ht)
  have h1 : toF32 (v1 : ℚ) ≤ toF32 (v2 : ℚ) := toF32_mono (by exact_mod_cast h)
  have h2 : toF32 (v1 : ℚ) / toF32 (t : ℚ) ≤ toF32 (v2 : ℚ) / toF32 (t : ℚ) := by
    gcongr
  have h3 := toF32_mono h2
  have h4 : toF32 (toF32 (v1 : ℚ) / toF32 (t : ℚ)) * 100 ≤
      toF32 (toF32 (v2 : ℚ) / toF32 (t : ℚ)) * 100 := by linarith
  exact toF32_mono h4

theorem confidence_score_eq_100 (t : Nat) : confidence_score t t = 100 := by
  unfold confidence_score confidence_policy
  simp

theorem confidence_score_of_lt {v t : Nat} (h : v < t) :
    confidence_score v t = u8OfF32 (confidenceRaw v t) := by
  unfold confidence_score confidence_policy confidenceRaw
  have : (v == t) = false := by simp; omega
  rw [this]
  simp

theorem confidence_score_le_100 {v t : Nat} (hv : v ≤ t) (ht : 0 < t) :
    confidence_score v t ≤ 100 := by
  rcases lt_or_eq_of_le hv with hlt | heq
  · rw [confidence_score_of_lt hlt]
    exact u8OfF32_le (by norm_num) (by exact_mod_cast confidenceRaw_le_100 hv ht)
  · subst heq
    rw [confidence_score_eq_100]

theorem confidence_score_mono {v1 v2 t : Nat} (ht : 0 < t) (h12 : v1 ≤ v2)
    (h2 : v2 ≤ t) : confidence_score v1 t ≤ confidence_score v2 t := by
  rcases lt_or_eq_of_le h2 with hlt | heq
  · rw [confidence_score_of_lt (lt_of_le_of_lt h12 hlt),
      confidence_score_of_lt hlt]
    exact u8OfF32_mono (confidenceRaw_mono ht h12)
  · subst heq
    calc confidence_score v1 v2 ≤ 100 := confidence_score_le_100 h12 ht
      _ = confidence_score v2 v2 := (confidence_score_eq_100 v2).symm

/-- In the pipeline, the failed list is empty exactly when the verified count
equals the chunk count, so the inline confidence computation is
`confidence_score` of the two counts. -/
theorem confidence_policy_eq_score (blake3 : List Nat → List Nat)
    (chunks : List DataChunk) :
    confidence_policy (partitionChunks blake3 chunks).2.isEmpty
        (partitionChunks blake3 chunks).1.length chunks.length =
      confidence_score (partitionChunks blake3 chunks).1.length chunks.length := by
  unfold confidence_score
  congr 1
  apply Bool.coe_iff_coe.mp
  rw [partitionChunks_eq]
  simp only [List.isEmpty_iff, List.length_map]
  have hsum := length_filter_add_length_filter_not (chunkOk blake3) chunks
  constructor
  · intro hnil
    have hfil := List.map_eq_nil_iff.mp hnil
    have : (chunks.filter (fun c => ! chunkOk blake3 c)).length = 0 := by
      rw [hfil]; rfl
    simp only [Nat.beq_eq_true_eq]
    omega
  · intro hbeq
    simp only [Nat.beq_eq_true_eq] at hbeq
    have hlen : (chunks.filter (fun c => ! chunkOk blake3 c)).length = 0 := by
      omega
    rw [List.length_eq_zero.mp hlen]
    rfl

/-! ### The claims -/

/-- C1: for every verify task whose pipeline run succeeds, the outcome's
`verifiedChunks`/`failedChunks` lists partition the input chunks' digests
exactly — each chunk's digest is placed in exactly one list (the two lists
are the order-preserving filters of the chunk sequence by the digest check),
their lengths add up to the number of input chunks, and each list preserves
the chunks' original relative order (it is a sublist of the input digest
sequence). -/
theorem c1_partition_exact {blake3 : List Nat → List Nat} {dev_mode : Bool}
    {external : String → List String → String → Nat →
      Except String AttestationResponse}
    {agent_id : String} {now : Nat} {task : VerifyTask}
    {r : VerificationResult}
    (h : verify_in_tee blake3 dev_mode external agent_id now task =
      Except.ok r) :
    r.verified_chunks =
      (task.data.filter (chunkOk blake3)).map (fun c => c.hash) ∧
    r.failed_chunks =
      (task.data.filter (fun c => ! chunkOk blake3 c)).map (fun c => c.hash) ∧
    r.verified_chunks.length + r.failed_chunks.length = task.data.length ∧
    (∀ c ∈ task.data,
      (chunkOk blake3 c = true → c.hash ∈ r.verified_chunks) ∧
      (chunkOk blake3 c = false → c.hash ∈ r.failed_chunks)) ∧
    r.verified_chunks.Sublist (task.data.map (fun c => c.hash)) ∧
    r.failed_chunks.Sublist (task.data.map (fun c => c.hash)) := by
  obtain ⟨att, -, hr⟩ := verify_in_tee_ok_fields h
  subst hr
  simp only [partitionChunks_eq]
  refine ⟨by trivial, by trivial, ?_, ?_, ?_, ?_⟩
  · simp only [List.length_map]
    exact length_filter_add_length_filter_not (chunkOk blake3) task.data
  · intro c hc
    constructor
    · intro hok
      exact List.mem_map.mpr ⟨c, List.mem_filter.mpr ⟨hc, hok⟩, rfl⟩
    · intro hbad
      exact List.mem_map.mpr
        ⟨c, List.mem_filter.mpr ⟨hc, by simp [hbad]⟩, rfl⟩
  · exact (List.filter_sublist task.data).map (fun c => c.hash)
  · exact (List.filter_sublist task.data).map (fun c => c.hash)

/-- Witness for C1 at the concrete two-chunk task `task2`. -/
theorem c1_partition_exact_witness :
    res2.verified_chunks =
      (task2.data.filter (chunkOk constHash)).map (fun c => c.hash) ∧
    res2.failed_chunks =
      (task2.data.filter (fun c => ! chunkOk constHash c)).map
        (fun c => c.hash) ∧
    res2.verified_chunks.length + res2.failed_chunks.length =
      task2.data.length ∧
    (∀ c ∈ task2.data,
      (chunkOk constHash c = true → c.hash ∈ res2.verified_chunks) ∧
      (chunkOk constHash c = false → c.hash ∈ res2.failed_chunks)) ∧
    res2.verified_chunks.Sublist (task2.data.map (fun c => c.hash)) ∧
    res2.failed_chunks.Sublist (task2.data.map (fun c => c.hash)) :=
  @c1_partition_exact constHash false okExternal "agent-1" 0 task2 res2 rfl

/-- C3: when the attestation call fails, the outbound outcome is the error
envelope with status `"error"`, the task's quest id, the configured agent id
and the provider's diagnostic text — a shape with no attestation field — and
the read loop is not terminated by this failure (only close frames and
transport errors end it). -/
theorem c3_attestation_error {blake3 : List Nat → List Nat} {dev_mode : Bool}
    {external : String → List String → String → Nat →
      Except String AttestationResponse}
    {agent_id : String} {now : Nat} {task : VerifyTask} {e : String}
    (hdm : dev_mode = false)
    (he : external
        (aggregate_hash blake3 (partitionChunks blake3 task.data).1)
        (partitionChunks blake3 task.data).1 task.quest_id now =
      Except.error e) :
    handle_task blake3 dev_mode external agent_id now
        (InboundMessage.verifyTask task) =
      some (OutboundMessage.errorResult
        { result_type := "task_result", quest_id := task.quest_id,
          agent_id := agent_id, status := "error", error := e }) ∧
    session_continues (WsEvent.text (InboundMessage.verifyTask task)) =
      true := by
  subst hdm
  have hv : verify_in_tee blake3 false external agent_id now task =
      Except.error e := by
    simp only [verify_in_tee, execute_verification, Bool.false_eq_true,
      if_false, he]
  constructor
  · simp only [handle_task, hv]
  · rfl

/-- Witness for C3 at a concrete task with a failing attestation endpoint. -/
theorem c3_attestation_error_witness :
    handle_task constHash false errExternal "agent-1" 0
        (InboundMessage.verifyTask task2) =
      some (OutboundMessage.errorResult
        { result_type := "task_result", quest_id := task2.quest_id,
          agent_id := "agent-1", status := "error",
          error := "TEE container error: connection refused" }) ∧
    session_continues (WsEvent.text (InboundMessage.verifyTask task2)) =
      true :=
  @c3_attestation_error constHash false errExternal "agent-1" 0 task2
    "TEE container error: connection refused" rfl rfl

/-- C4: the aggregate commitment is the hex rendering of one hash of the
concatenation of the verified digests' raw bytes in sequence order (each
digest's bytes are absorbed as they are, not re-hashed first), and for the
empty sequence it is the hash of the empty byte stream, with no
special-casing. -/
theorem c4_aggregate_stream (blake3 : List Nat → List Nat)
    (digests : List String) :
    aggregate_hash blake3 digests =
      hexRender (blake3 ((digests.map utf8Bytes).flatten)) ∧
    aggregate_hash blake3 [] = hexRender (blake3 []) := by
  constructor
  · unfold aggregate_hash Hasher.finalize Hasher.new
    rw [aggregate_go]
    simp
  · rfl

/-- C5: the simulated (dev-mode) attestation is a pure function of the pair
(aggregate hash, quest id): its fields are computed from one keyed hash over
the aggregate hash, the quest id and a fixed domain-separation tag, so
identical inputs give identical quotes, signer keys and signatures whatever
else varies (the endpoint, the verified-hash list and the clock are ignored);
the success flag is always `true` with no error; and the quote, public key
and signature carry the non-production marker prefixes `DEV_TDX_QUOTE_`,
`DEV_PUBKEY_` and `DEV_SIG_`. -/
theorem c5_dev_attestation_pure (blake3 : List Nat → List Nat)
    (a q : String)
    (ext : String → List String → String → Nat →
      Except String AttestationResponse)
    (vh : List String) (now : Nat) :
    (generate_dev_attestation blake3 a q).success = true ∧
    (generate_dev_attestation blake3 a q).error = none ∧
    (generate_dev_attestation blake3 a q).quote =
      "DEV_TDX_QUOTE_" ++ hexRender (blake3
        (utf8Bytes a ++ utf8Bytes q ++
          utf8Bytes "eigencloud_dev_attestation")) ∧
    (generate_dev_attestation blake3 a q).validator_pubkey =
      "DEV_PUBKEY_" ++ (hexRender (blake3
        (utf8Bytes a ++ utf8Bytes q ++
          utf8Bytes "eigencloud_dev_attestation"))).take 16 ∧
    (generate_dev_attestation blake3 a q).signature =
      "DEV_SIG_" ++ ((hexRender (blake3
        (utf8Bytes a ++ utf8Bytes q ++
          utf8Bytes "eigencloud_dev_attestation"))).drop 16).take 32 ∧
    execute_verification blake3 true ext a vh q now =
      Except.ok (generate_dev_attestation blake3 a q) := by
  refine ⟨?_, ?_, ?_, ?_, ?_, rfl⟩ <;>
    (unfold generate_dev_attestation Hasher.finalize Hasher.update Hasher.new
     simp [List.append_assoc])

/-- C6: for every task with at least one chunk whose pipeline run completes,
the outcome status is `"verified"` exactly when the confidence score is at
least 95, `"partial"` exactly otherwise, and these two are the only statuses
of a completed run. -/
theorem c6_status_iff {blake3 : List Nat → List Nat} {dev_mode : Bool}
    {external : String → List String → String → Nat →
      Except String AttestationResponse}
    {agent_id : String} {now : Nat} {task : VerifyTask}
    {r : VerificationResult}
    (h : verify_in_tee blake3 dev_mode external agent_id now task =
      Except.ok r)
    (_ht : 0 < task.data.length) :
    (r.status = "verified" ↔ 95 ≤ r.attestation.confidence_score) ∧
    (r.status = "partial" ↔ r.attestation.confidence_score < 95) ∧
    (r.status = "verified" ∨ r.status = "partial") := by
  obtain ⟨att, -, hr⟩ := verify_in_tee_ok_fields h
  subst hr
  have hstat : ∀ s : Nat,
      ((if 95 ≤ s then "verified" else "partial") = "verified" ↔ 95 ≤ s) ∧
      ((if 95 ≤ s then "verified" else "partial") = "partial" ↔ s < 95) ∧
      ((if 95 ≤ s then "verified" else "partial") = "verified" ∨
        (if 95 ≤ s then "verified" else "partial") = "partial") := by
    intro s
    by_cases hc : 95 ≤ s
    · rw [if_pos hc]
      exact ⟨⟨fun _ => hc, fun _ => rfl⟩,
        ⟨fun hco => absurd hco (by decide), fun hlt => absurd hc (by omega)⟩,
        Or.inl rfl⟩
    · rw [if_neg hc]
      exact ⟨⟨fun hco => absurd hco (by decide), fun hge => absurd hge hc⟩,
        ⟨fun _ => by omega, fun _ => rfl⟩, Or.inr rfl⟩
  exact hstat _

/-- Witness for C6 at the concrete two-chunk task `task2`. -/
theorem c6_status_iff_witness :
    (res2.status = "verified" ↔ 95 ≤ res2.attestation.confidence_score) ∧
    (res2.status = "partial" ↔ res2.attestation.confidence_score < 95) ∧
    (res2.status = "verified" ∨ res2.status = "partial") :=
  @c6_status_iff constHash false okExternal "agent-1" 0 task2 res2 rfl
    (by decide)

/-- C9: the pipeline never divides by zero — a task with no chunks has an
empty failed list, so it takes the constant branch and reports confidence 100
with status `"verified"`, and the dividing branch is reached only when the
failed list is nonempty, which forces at least one input chunk. -/
theorem c9_zero_chunk_guard {blake3 : List Nat → List Nat} {dev_mode : Bool}
    {external : String → List String → String → Nat →
      Except String AttestationResponse}
    {agent_id : String} {now : Nat} {task : VerifyTask}
    {r : VerificationResult}
    (h : verify_in_tee blake3 dev_mode external agent_id now task =
      Except.ok r) :
    (task.data = [] →
      r.attestation.confidence_score = 100 ∧ r.status = "verified") ∧
    (r.failed_chunks ≠ [] → 1 ≤ task.data.length) := by
  obtain ⟨att, -, hr⟩ := verify_in_tee_ok_fields h
  subst hr
  constructor
  · intro hnil
    rw [hnil]
    exact ⟨rfl, rfl⟩
  · intro hne
    simp only [partitionChunks_eq] at hne
    cases hd : task.data with
    | nil =>
      rw [hd] at hne
      exact absurd rfl hne
    | cons c cs => simp [hd]

/-- Witness for C9 at the concrete zero-chunk task `emptyTask`. -/
theorem c9_zero_chunk_guard_witness :
    (emptyTask.data = [] →
      resEmpty.attestation.confidence_score = 100 ∧
      resEmpty.status = "verified") ∧
    (resEmpty.failed_chunks ≠ [] → 1 ≤ emptyTask.data.length) :=
  @c9_zero_chunk_guard constHash false okExternal "agent-1" 0 emptyTask
    resEmpty rfl

/-- C10: the pipeline never reads the task's `expectedHashes` list (each
chunk is checked against its own embedded hash field): two tasks with the
same quest id and chunk list produce identical pipeline outcomes and
identical replies, whatever their `expectedHashes` (and type tag). -/
theorem c10_expected_hashes_unused {blake3 : List Nat → List Nat}
    {dev_mode : Bool}
    {external : String → List String → String → Nat →
      Except String AttestationResponse}
    {agent_id : String} {now : Nat} {t1 t2 : VerifyTask}
    (hq : t1.quest_id = t2.quest_id) (hd : t1.data = t2.data) :
    verify_in_tee blake3 dev_mode external agent_id now t1 =
      verify_in_tee blake3 dev_mode external agent_id now t2 ∧
    handle_task blake3 dev_mode external agent_id now
        (InboundMessage.verifyTask t1) =
      handle_task blake3 dev_mode external agent_id now
        (InboundMessage.verifyTask t2) := by
  obtain ⟨tt1, q1, d1, e1⟩ := t1
  obtain ⟨tt2, q2, d2, e2⟩ := t2
  simp only at hq hd
  subst hq
  subst hd
  exact ⟨rfl, rfl⟩

/-- Witness for C10: `task2` and `task2b` differ in their expected-hash lists
(and type tags) yet produce the same outcome and reply. -/
theorem c10_expected_hashes_unused_witness :
    verify_in_tee constHash false okExternal "agent-1" 0 task2 =
      verify_in_tee constHash false okExternal "agent-1" 0 task2b ∧
    handle_task constHash false okExternal "agent-1" 0
        (InboundMessage.verifyTask task2) =
      handle_task constHash false okExternal "agent-1" 0
        (InboundMessage.verifyTask task2b) :=
  @c10_expected_hashes_unused constHash false okExternal "agent-1" 0 task2
    task2b rfl rfl

/-- Counterexample to C7 as stated: for digest strings of unequal length the
two concatenation orders can feed the hasher the same byte stream, so the
aggregates coincide for any digest function — here `"a"` and `"aa"`, whose
concatenations are both `"aaa"`. -/
theorem c7_order_counterexample :
    ("a" : String) ≠ "aa" ∧
    aggregate_hash (fun bs => bs) ["a", "aa"] =
      aggregate_hash (fun bs => bs) ["aa", "a"] := by
  exact ⟨by decide, rfl⟩

/-- C7 (amended): for digest strings whose byte encodings are distinct and of
equal length — as distinct 64-character hex digests always are — the two
orders feed the hasher different byte streams, and the aggregate commitments
differ whenever the digest function does not collide on those two streams
(its outputs being byte lists, the hex renderings then differ too). -/
theorem c7_order_amended (blake3 : List Nat → List Nat) (h1 h2 : String)
    (hne : utf8Bytes h1 ≠ utf8Bytes h2)
    (hlen : (utf8Bytes h1).length = (utf8Bytes h2).length)
    (hcoll : blake3 (utf8Bytes h1 ++ utf8Bytes h2) ≠
      blake3 (utf8Bytes h2 ++ utf8Bytes h1))
    (hr1 : ∀ b ∈ blake3 (utf8Bytes h1 ++ utf8Bytes h2), b < 256)
    (hr2 : ∀ b ∈ blake3 (utf8Bytes h2 ++ utf8Bytes h1), b < 256) :
    utf8Bytes h1 ++ utf8Bytes h2 ≠ utf8Bytes h2 ++ utf8Bytes h1 ∧
    aggregate_hash blake3 [h1, h2] ≠ aggregate_hash blake3 [h2, h1] := by
  constructor
  · intro heq
    exact hne (List.append_inj_left heq hlen)
  · intro heq
    have hagg1 : aggregate_hash blake3 [h1, h2] =
        hexRender (blake3 (utf8Bytes h1 ++ utf8Bytes h2)) := by
      unfold aggregate_hash Hasher.finalize Hasher.new Hasher.update
      simp
    have hagg2 : aggregate_hash blake3 [h2, h1] =
        hexRender (blake3 (utf8Bytes h2 ++ utf8Bytes h1)) := by
      unfold aggregate_hash Hasher.finalize Hasher.new Hasher.update
      simp
    rw [hagg1, hagg2] at heq
    exact hcoll (hexRender_inj hr1 hr2 heq)

/-- Witness for the amended C7 at the concrete digests `"ab"` and `"ba"` and
a digest function that keeps the first byte of the stream. -/
theorem c7_order_amended_witness :
    utf8Bytes "ab" ++ utf8Bytes "ba" ≠ utf8Bytes "ba" ++ utf8Bytes "ab" ∧
    aggregate_hash (fun bs => [bs.headD 0 % 256]) ["ab", "ba"] ≠
      aggregate_hash (fun bs => [bs.headD 0 % 256]) ["ba", "ab"] :=
  c7_order_amended (fun bs => [bs.headD 0 % 256]) "ab" "ba" (by decide)
    (by decide) (by decide) (by decide) (by decide)

/-- Counterexample to C8 as stated: a chunk whose payload fails to serialize
is hashed as the empty byte stream, not unconditionally rejected — if its
expected digest happens to equal the digest of the empty stream, the check
returns `true`, not `false`. -/
theorem c8_serialization_counterexample :
    verify_hash (fun _ => []) none "" = true := rfl

/-- C8 (amended): the hash check is a total function that never aborts the
task; a chunk whose payload fails to serialize is treated as carrying the
empty byte stream, so the check returns the comparison of the empty-stream
digest with the expected digest — in particular it returns `false` whenever
the expected digest differs from the empty-stream digest. -/
theorem c8_serialization_amended (blake3 : List Nat → List Nat) (e : String) :
    verify_hash blake3 none e = (hexRender (blake3 []) == e) ∧
    (e ≠ hexRender (blake3 []) → verify_hash blake3 none e = false) := by
  constructor
  · rfl
  · intro hne
    unfold verify_hash
    simp only [Option.getD_none]
    exact beq_eq_false_iff_ne.mpr (Ne.symm hne)

/-- Witness for the amended C8 at a concrete digest function and expected
digest. -/
theorem c8_serialization_amended_witness :
    verify_hash (fun _ => []) none "zz" = (hexRender [] == "zz") ∧
    verify_hash (fun _ => []) none "zz" = false :=
  ⟨(c8_serialization_amended (fun _ => []) "zz").1,
    (c8_serialization_amended (fun _ => []) "zz").2 (by decide)⟩

/-! ### Concrete `f32` evaluations for the confidence computation -/

theorem toF32_53 : toF32 (53 : ℚ) = 53 := by
  have hm : roundEven ((53 : ℚ) * 2 ^ ((23 : ℤ) - 5)) = 13893632 := by
    rw [show (53 : ℚ) * 2 ^ ((23 : ℤ) - 5) = ((13893632 : ℤ) : ℚ) by norm_num,
      roundEven_intCast]
  rw [toF32_eval 5 13893632 (by norm_num) (by norm_num) (by norm_num) hm]
  norm_num

theorem toF32_ratio_53_100 : toF32 ((53 : ℚ) / 100) = 2222981 / 4194304 := by
  have hm : roundEven ((53 : ℚ) / 100 * 2 ^ ((23 : ℤ) - (-1))) = 8891924 := by
    rw [show (53 : ℚ) / 100 * 2 ^ ((23 : ℤ) - (-1)) = (222298112 : ℚ) / 25
      by norm_num]
    exact roundEven_of_lt (f := 8891924) (by norm_num) (by norm_num)
  rw [toF32_eval (-1) 8891924 (by norm_num) (by norm_num) (by norm_num) hm]
  norm_num

theorem toF32_scaled_53 :
    toF32 ((2222981 : ℚ) / 4194304 * 100) = 13893631 / 262144 := by
  have hq : (2222981 : ℚ) / 4194304 * 100 = 55574525 / 1048576 := by norm_num
  rw [hq]
  have hm : roundEven ((55574525 : ℚ) / 1048576 * 2 ^ ((23 : ℤ) - 5)) =
      13893631 := by
    rw [show (55574525 : ℚ) / 1048576 * 2 ^ ((23 : ℤ) - 5) = (55574525 : ℚ) / 4
      by norm_num]
    exact roundEven_of_lt (f := 13893631) (by norm_num) (by norm_num)
  rw [toF32_eval 5 13893631 (by norm_num) (by norm_num) (by norm_num) hm]
  norm_num

/-- At 53 verified chunks out of 100 the `f32` computation yields 52, one
below `floor(100 * 53 / 100) = 53`: `53 / 100` rounds down to
`8891924 / 2 ^ 24` and multiplying by 100 rounds down again to
`13893631 / 2 ^ 18 < 53`, which the `as u8` cast truncates to 52. -/
theorem confidence_policy_53_100 : confidence_policy false 53 100 = 52 := by
  have h0 : confidence_policy false 53 100 =
      u8OfF32 (toF32 (toF32 (toF32 ((53 : Nat) : ℚ) /
        toF32 ((100 : Nat) : ℚ)) * 100)) := rfl
  rw [h0, show ((53 : Nat) : ℚ) = (53 : ℚ) by norm_num,
    show ((100 : Nat) : ℚ) = (100 : ℚ) by norm_num, toF32_53, toF32_100,
    toF32_ratio_53_100, toF32_scaled_53]
  unfold u8OfF32
  rw [show ⌊(13893631 : ℚ) / 262144⌋ = 52 by norm_num]
  rfl

theorem toF32_big1 : toF32 (33554431 : ℚ) = 33554432 := by
  have hm : roundEven ((33554431 : ℚ) * 2 ^ ((23 : ℤ) - 24)) = 16777216 := by
    rw [show (33554431 : ℚ) * 2 ^ ((23 : ℤ) - 24) = (33554431 : ℚ) / 2
      by norm_num]
    rw [roundEven_of_tie (f := 16777215) (by norm_num) (by norm_num)]
    norm_num
  rw [toF32_eval 24 16777216 (by norm_num) (by norm_num) (by norm_num) hm]
  norm_num

theorem toF32_big2 : toF32 (33554432 : ℚ) = 33554432 := by
  have hm : roundEven ((33554432 : ℚ) * 2 ^ ((23 : ℤ) - 25)) = 8388608 := by
    rw [show (33554432 : ℚ) * 2 ^ ((23 : ℤ) - 25) = ((8388608 : ℤ) : ℚ)
      by norm_num, roundEven_intCast]
  rw [toF32_eval 25 8388608 (by norm_num) (by norm_num) (by norm_num) hm]
  norm_num

/-- At `2 ^ 25 - 1` verified chunks out of `2 ^ 25`, the verified count
itself rounds up to `2 ^ 25` when cast to `f32` (a tie broken to the even
significand), so the quotient is exactly 1 and the computation reports 100
although one chunk failed. -/
theorem confidence_policy_big :
    confidence_policy false 33554431 33554432 = 100 := by
  unfold confidence_policy
  rw [if_neg (by decide : ¬ ((false : Bool) = true))]
  rw [show ((33554431 : Nat) : ℚ) = (33554431 : ℚ) by norm_num]
  rw [show ((33554432 : Nat) : ℚ) = (33554432 : ℚ) by norm_num]
  rw [toF32_big1, toF32_big2]
  rw [show (33554432 : ℚ) / 33554432 = 1 by norm_num]
  rw [toF32_one, one_mul, toF32_100]
  unfold u8OfF32
  rw [show ⌊(100 : ℚ)⌋ = 100 by norm_num]
  rfl

theorem partition_replicate_append (blake3 : List Nat → List Nat)
    (c d : DataChunk) (n m : Nat)
    (hc : chunkOk blake3 c = true) (hd : chunkOk blake3 d = false) :
    partitionChunks blake3 (List.replicate n c ++ List.replicate m d) =
      (List.replicate n c.hash, List.replicate m d.hash) := by
  rw [partitionChunks_eq, List.filter_append, List.filter_append,
    filter_replicate_of_pos _ _ _ hc,
    filter_replicate_of_neg _ _ _ hd,
    filter_replicate_of_neg (fun x => ! chunkOk blake3 x) _ _ (by simp [hc]),
    filter_replicate_of_pos (fun x => ! chunkOk blake3 x) _ _ (by simp [hd])]
  simp [List.map_replicate]

/-- Evaluates the confidence of a successful run through `okExternal` from a
computed partition. -/
theorem verify_confidence_eval (blake3 : List Nat → List Nat)
    (task : VerifyTask) (vs fs : List String)
    (hp : partitionChunks blake3 task.data = (vs, fs)) :
    (verify_in_tee blake3 false okExternal "agent-1" 0 task).map
        (fun r => r.attestation.confidence_score) =
      Except.ok (confidence_policy fs.isEmpty vs.length task.data.length) := by
  simp only [verify_in_tee, execute_verification, Bool.false_eq_true,
    if_false, okExternal, hp]
  rfl

/-- Counterexample to C2 as stated: the confidence is computed in `f32`
arithmetic, not exact rational arithmetic.  At 53 verified chunks out of 100
the outcome's score is 52, not `floor(100 * 53 / 100) = 53`; and at
`2 ^ 25 - 1` verified chunks out of `2 ^ 25` the score is 100 although the
verified count differs from the total. -/
theorem c2_confidence_counterexample :
    ((verify_in_tee constHash false okExternal "agent-1" 0 task53).map
        (fun r => r.attestation.confidence_score) = Except.ok 52 ∧
      (52 : Nat) ≠ 100 * 53 / 100) ∧
    ((verify_in_tee constHash false okExternal "agent-1" 0 taskBig).map
        (fun r => r.attestation.confidence_score) = Except.ok 100 ∧
      (33554431 : Nat) ≠ 33554432) := by
  constructor
  · constructor
    · have hp : partitionChunks constHash task53.data =
          (List.replicate 53 "", List.replicate 47 "x") := by
        show partitionChunks constHash
            (List.replicate 53 okChunk ++ List.replicate 47 badChunk) = _
        rw [partition_replicate_append constHash okChunk badChunk 53 47 rfl
          rfl]
        rfl
      have hlen : task53.data.length = 100 := by
        show (List.replicate 53 okChunk ++ List.replicate 47 badChunk).length
          = 100
        rw [List.length_append, List.length_replicate, List.length_replicate]
      rw [verify_confidence_eval constHash task53 _ _ hp,
        show (List.replicate 47 "x").isEmpty = false from rfl,
        List.length_replicate, hlen, confidence_policy_53_100]
    · decide
  · constructor
    · have hp : partitionChunks constHash taskBig.data =
          (List.replicate 33554431 "", List.replicate 1 "x") := by
        show partitionChunks constHash
            (List.replicate 33554431 okChunk ++ List.replicate 1 badChunk) = _
        rw [partition_replicate_append constHash okChunk badChunk 33554431 1
          rfl rfl]
        rfl
      have hlen : taskBig.data.length = 33554432 := by
        show (List.replicate 33554431 okChunk ++
          List.replicate 1 badChunk).length = 33554432
        rw [List.length_append, List.length_replicate, List.length_replicate]
      rw [verify_confidence_eval constHash taskBig _ _ hp,
        show (List.replicate 1 "x").isEmpty = false from rfl,
        List.length_replicate, hlen, confidence_policy_big]
    · decide

/-- C2 (amended): for every task with at least one chunk whose run completes,
the confidence score is `confidence_score verified_count total_count`, which
equals exactly 100 when all chunks verified and otherwise is the saturating
`u8` truncation of the `f32` computation
`(verified as f32 / total as f32) * 100.0` — a value that can differ from
`floor(100 * verified / total)` by rounding (and can reach 100 with a failed
chunk once the counts exceed `2 ^ 24`); the score never exceeds 100 and, for
a fixed total, is monotone non-decreasing in the verified count. -/
theorem c2_confidence_amended {blake3 : List Nat → List Nat}
    {dev_mode : Bool}
    {external : String → List String → String → Nat →
      Except String AttestationResponse}
    {agent_id : String} {now : Nat} {task : VerifyTask}
    {r : VerificationResult}
    (h : verify_in_tee blake3 dev_mode external agent_id now task =
      Except.ok r)
    (ht : 0 < task.data.length) :
    r.attestation.confidence_score =
      confidence_score r.verified_chunks.length task.data.length ∧
    (r.verified_chunks.length = task.data.length →
      r.attestation.confidence_score = 100) ∧
    (r.verified_chunks.length < task.data.length →
      r.attestation.confidence_score =
        u8OfF32 (confidenceRaw r.verified_chunks.length task.data.length)) ∧
    r.attestation.confidence_score ≤ 100 ∧
    (∀ v1 v2 t : Nat, 0 < t → v1 ≤ v2 → v2 ≤ t →
      confidence_score v1 t ≤ confidence_score v2 t) ∧
    (∀ t : Nat, confidence_score t t = 100) := by
  obtain ⟨att, -, hr⟩ := verify_in_tee_ok_fields h
  subst hr
  have hkey := confidence_policy_eq_score blake3 task.data
  have hvle : (partitionChunks blake3 task.data).1.length ≤
      task.data.length := by
    rw [partitionChunks_eq]
    simp only [List.length_map]
    exact List.length_filter_le _ _
  refine ⟨hkey, ?_, ?_, ?_, ?_, ?_⟩
  · intro hveq
    rw [hkey]
    simp only [List.length_map] at hveq ⊢
    rw [hveq, confidence_score_eq_100]
  · intro hvlt
    rw [hkey]
    exact confidence_score_of_lt hvlt
  · rw [hkey]
    exact confidence_score_le_100 hvle ht
  · intro v1 v2 t htp h12 h2t
    exact confidence_score_mono htp h12 h2t
  · intro t
    exact confidence_score_eq_100 t

/-- Witness for the amended C2 at the concrete two-chunk task `task2`. -/
theorem c2_confidence_amended_witness :
    res2.attestation.confidence_score =
      confidence_score res2.verified_chunks.length task2.data.length ∧
    (res2.verified_chunks.length = task2.data.length →
      res2.attestation.confidence_score = 100) ∧
    (res2.verified_chunks.length < task2.data.length →
      res2.attestation.confidence_score =
        u8OfF32 (confidenceRaw res2.verified_chunks.length
          task2.data.length)) ∧
    res2.attestation.confidence_score ≤ 100 ∧
    (∀ v1 v2 t : Nat, 0 < t → v1 ≤ v2 → v2 ≤ t →
      confidence_score v1 t ≤ confidence_score v2 t) ∧
    (∀ t : Nat, confidence_score t t = 100) :=
  @c2_confidence_amended constHash false okExternal "agent-1" 0 task2 res2
    rfl (by decide)

end AetherSwarm
